import Mathlib

/-!
Verification development for the geodiff-app crawler sources.

The development shallowly embeds the Python sources:
  * `src/gpcrawler/mpyscraper/element.py`  (nested_lookup, ElementSpec)
  * `src/gpcrawler/mpyscraper/utils.py`    (parse_response, get_ui_request,
                                            cluster_request, download_link)
  * `src/gpcrawler/mpyscraper/api.py`      (details)
  * `src/gpcrawler/metadata_crawl.py`      (try_metadata row, read_apps)
  * `src/apk-downloader/crawler.py`        (execute, crawl loop, readers)

Python runtime values that can appear in parsed JSON responses are modelled
by `JVal` (with `JVal.null` standing for Python `None`, which is what
`json.loads` produces for JSON `null`).  Raised Python exceptions are
modelled by `Except PyExc`.  Strings are modelled through their character
lists; helper primitives (`containsSub`, `pySplit`, `pyStrip`, ...) mirror
the Python `str` methods used by the sources.
-/

set_option maxRecDepth 4000

/-- Python exception classes that the modelled code can raise or catch.
`valueError` also stands for `json.JSONDecodeError`, which is a subclass of
`ValueError` in Python.  The last three are the scraper-declared exception
classes of `mpyscraper/exceptions.py`. -/
inductive PyExc where
  | keyError
  | indexError
  | typeError
  | valueError
  | transport
  | notFound
  | extraHTTP
  | invalidURL
deriving DecidableEq, Repr

/-- The scraper-declared exception classes (subclasses of
`GooglePlayScraperException` in `mpyscraper/exceptions.py`). -/
def isScraperException : PyExc → Bool
  | .notFound => true
  | .extraHTTP => true
  | .invalidURL => true
  | _ => false

/-- Python values that can result from `json.loads` (plus the values the
modelled code builds from them).  `null` is Python `None`; a JSON number is
kept exactly as `mant * 10 ^ ex`. -/
inductive JVal where
  | null
  | bool (b : Bool)
  | num (mant : Int) (ex : Int)
  | str (s : String)
  | arr (xs : List JVal)
  | obj (fs : List (String × JVal))

/-- Python truthiness (`bool(v)`) for modelled values. -/
def truthy : JVal → Bool
  | .null => false
  | .bool b => b
  | .num m _ => m != 0
  | .str s => !s.data.isEmpty
  | .arr xs => !xs.isEmpty
  | .obj fs => !fs.isEmpty

/-- Model: `v is None` in Python. -/
def JVal.isNull : JVal → Bool
  | .null => true
  | _ => false

/-- Python `len(v)`; raises `TypeError` on unsized values. -/
def pyLen : JVal → Except PyExc Int
  | .arr xs => .ok xs.length
  | .str s => .ok s.data.length
  | .obj fs => .ok fs.length
  | _ => .error .typeError

/-- Python list indexing `xs[i]` with negative-index wraparound. -/
def pyListIndex (xs : List JVal) (i : Int) : Except PyExc JVal :=
  let j : Int := if i < 0 then i + xs.length else i
  if j < 0 then .error .indexError
  else
    match xs[j.toNat]? with
    | some v => .ok v
    | none => .error .indexError

/-- Python subscription `v[i]` with an `int` subscript: lists and strings
index (strings yield one-character strings), dicts from JSON have string
keys so an int subscript raises `KeyError`, everything else raises
`TypeError`. -/
def pyIndex : JVal → Int → Except PyExc JVal
  | .arr xs, i => pyListIndex xs i
  | .str s, i =>
    let j : Int := if i < 0 then i + s.data.length else i
    if j < 0 then .error .indexError
    else
      match s.data[j.toNat]? with
      | some c => .ok (.str ⟨[c]⟩)
      | none => .error .indexError
  | .obj _, _ => .error .keyError
  | _, _ => .error .typeError

/-- Python iteration over a value (`for x in v`): lists yield elements,
strings yield one-character strings, dicts yield their keys; other values
raise `TypeError`. -/
def pyIter : JVal → Except PyExc (List JVal)
  | .arr xs => .ok xs
  | .str s => .ok (s.data.map fun c => .str ⟨[c]⟩)
  | .obj fs => .ok (fs.map fun p => .str p.1)
  | _ => .error .typeError

/-- Python dict lookup `d[k]` on a string-keyed dict modelled as an
association list (first binding wins, as the model only ever inserts with
`pyDictInsert` which keeps keys unique). -/
def pyDictGet (fs : List (String × JVal)) (k : String) : Except PyExc JVal :=
  match fs.find? (fun p => p.1 == k) with
  | some p => .ok p.2
  | none => .error .keyError

/-- Python dict assignment `d[k] = v`: overwrite in place if the key is
present (keeping its position), otherwise append. -/
def pyDictInsert (fs : List (String × JVal)) (k : String) (v : JVal) :
    List (String × JVal) :=
  match fs with
  | [] => [(k, v)]
  | p :: rest =>
    if p.1 == k then (k, v) :: rest else p :: pyDictInsert rest k v

/-- Worker for `containsSub`: does `needle` occur at some position? -/
def containsSubGo (needle : List Char) : List Char → Bool
  | [] => needle.isEmpty
  | c :: cs => needle.isPrefixOf (c :: cs) || containsSubGo needle cs

/-- Model: `needle in hay` for Python strings. -/
def containsSub (needle hay : String) : Bool :=
  containsSubGo needle.data hay.data

/-- The whitespace characters stripped by Python `str.strip()`. -/
def pyIsWs (c : Char) : Bool :=
  c = ' ' || c = '\t' || c = '\n' || c = '\r' || c = '\x0b' || c = '\x0c'

/-- Python `str.strip()` (no argument). -/
def pyStrip (s : String) : String :=
  ⟨((s.data.dropWhile pyIsWs).reverse.dropWhile pyIsWs).reverse⟩

/-- Python `str.lstrip(chars)`: drop leading characters belonging to the
given set. -/
def pyLstrip (chars : List Char) (s : String) : String :=
  ⟨s.data.dropWhile (fun c => chars.contains c)⟩

/-- Worker for `pySplit`; the fuel only serves termination and is always
sufficient (every recursive call consumes at least one character, the
separator being non-empty at every use site). -/
def pySplitGo (sep : List Char) : Nat → List Char → List Char → List (List Char)
  | 0, acc, cs => [acc.reverse ++ cs]
  | _ + 1, acc, [] => [acc.reverse]
  | fuel + 1, acc, c :: cs =>
    if sep.isPrefixOf (c :: cs) then
      acc.reverse :: pySplitGo sep fuel [] ((c :: cs).drop sep.length)
    else
      pySplitGo sep fuel (c :: acc) cs

/-- Python `s.split(sep)` for a non-empty separator: non-overlapping,
left-to-right. -/
def pySplit (s sep : String) : List String :=
  (pySplitGo sep.data (s.data.length + 1) [] s.data).map fun p => ⟨p⟩

/-- Worker for `replaceSub` (Python `s.replace(old, new)` with non-empty
`old`); fuel as in `pySplitGo`. -/
def replaceSubGo (old new : List Char) : Nat → List Char → List Char
  | 0, cs => cs
  | _ + 1, [] => []
  | fuel + 1, c :: cs =>
    if old.isPrefixOf (c :: cs) then
      new ++ replaceSubGo old new fuel ((c :: cs).drop old.length)
    else
      c :: replaceSubGo old new fuel cs

/-- Python `s.replace(old, new)` for a non-empty `old`. -/
def replaceSub (s old new : String) : String :=
  ⟨replaceSubGo old.data new.data (s.data.length + 1) s.data⟩

/-- Python `int(s)` on a string: strip whitespace, optional sign, then a
non-empty run of digits; anything else raises `ValueError`. -/
def pyInt (s : String) : Except PyExc Int :=
  let core := (s.data.dropWhile pyIsWs).reverse.dropWhile pyIsWs |>.reverse
  let signed : Int × List Char :=
    match core with
    | '-' :: rest => (-1, rest)
    | '+' :: rest => (1, rest)
    | rest => (1, rest)
  match signed with
  | (sign, ds) =>
    if ds.isEmpty || !ds.all Char.isDigit then .error .valueError
    else .ok (sign * (ds.foldl (fun a c => a * 10 + (c.toNat - '0'.toNat)) 0 : Nat))

/-! Section: A model of Python `json.loads`

Recursive-descent parser over the character list, producing a `JVal`.
The fuel argument only serves termination: every recursive call consumes
at least one input character first, so the fuel chosen in `json_loads`
(one more than the input length) is always sufficient. -/

/-- JSON whitespace accepted between tokens by `json.loads`. -/
def jsonWs (c : Char) : Bool :=
  c = ' ' || c = '\t' || c = '\n' || c = '\r'

/-- Skip JSON whitespace. -/
def skipWs (cs : List Char) : List Char :=
  cs.dropWhile jsonWs

/-- Parse a run of decimal digits, returning them and the rest. -/
def takeDigits (cs : List Char) : List Char × List Char :=
  (cs.takeWhile Char.isDigit, cs.dropWhile Char.isDigit)

/-- Digit run to a natural number. -/
def digitsToNat (ds : List Char) : Nat :=
  ds.foldl (fun a c => a * 10 + (c.toNat - '0'.toNat)) 0

/-- Parse the exponent part of a JSON number after `e`/`E`. -/
def parseNumExp (mant ex1 : Int) (r : List Char) : Option (Int × Int × List Char) :=
  let (esign, r2) : Int × List Char :=
    match r with
    | '-' :: rr => (-1, rr)
    | '+' :: rr => (1, rr)
    | rr => (1, rr)
  match takeDigits r2 with
  | ([], _) => none
  | (es, r3) => some (mant, ex1 + esign * digitsToNat es, r3)

/-- Parse a JSON number after an optional leading minus has been split off:
`int frac? exp?` with the no-leading-zero rule, returning
`(mantissa, decimal exponent, rest)`. -/
def parseNumCore (cs : List Char) : Option (Int × Int × List Char) :=
  match takeDigits cs with
  | ([], _) => none
  | (ds, rest) =>
    if ds.length > 1 && ds.head? = some '0' then none
    else
      let ipart : Int := digitsToNat ds
      let (mant, ex1, rest1) :=
        match rest with
        | '.' :: r =>
          match takeDigits r with
          | ([], _) => (ipart, (0 : Int), ['.'])
          | (fs, r2) =>
            ((ipart * ((10 : Int) ^ fs.length) + digitsToNat fs : Int),
              (-(fs.length : Int)), r2)
        | _ => (ipart, 0, rest)
      match rest1 with
      | '.' :: _ => none
      | 'e' :: r => parseNumExp mant ex1 r
      | 'E' :: r => parseNumExp mant ex1 r
      | r => some (mant, ex1, r)

/-- Hex digit value. -/
def hexVal (c : Char) : Option Nat :=
  if '0' ≤ c ∧ c ≤ '9' then some (c.toNat - '0'.toNat)
  else if 'a' ≤ c ∧ c ≤ 'f' then some (c.toNat - 'a'.toNat + 10)
  else if 'A' ≤ c ∧ c ≤ 'F' then some (c.toNat - 'A'.toNat + 10)
  else none

/-- Parse the body of a JSON string (after the opening quote), handling the
escape sequences accepted by `json.loads` in strict mode; unescaped control
characters are rejected. -/
def parseJStr : List Char → Option (List Char × List Char)
  | [] => none
  | '"' :: rest => some ([], rest)
  | '\\' :: esc =>
    match esc with
    | '"' :: r => (parseJStr r).map fun p => ('"' :: p.1, p.2)
    | '\\' :: r => (parseJStr r).map fun p => ('\\' :: p.1, p.2)
    | '/' :: r => (parseJStr r).map fun p => ('/' :: p.1, p.2)
    | 'b' :: r => (parseJStr r).map fun p => ('\x08' :: p.1, p.2)
    | 'f' :: r => (parseJStr r).map fun p => ('\x0c' :: p.1, p.2)
    | 'n' :: r => (parseJStr r).map fun p => ('\n' :: p.1, p.2)
    | 'r' :: r => (parseJStr r).map fun p => ('\r' :: p.1, p.2)
    | 't' :: r => (parseJStr r).map fun p => ('\t' :: p.1, p.2)
    | 'u' :: h1 :: h2 :: h3 :: h4 :: r =>
      match hexVal h1, hexVal h2, hexVal h3, hexVal h4 with
      | some a, some b, some c, some d =>
        (parseJStr r).map fun p =>
          (Char.ofNat (((a * 16 + b) * 16 + c) * 16 + d) :: p.1, p.2)
      | _, _, _, _ => none
    | _ => none
  | c :: rest =>
    if c.toNat < 0x20 then none
    else (parseJStr rest).map fun p => (c :: p.1, p.2)

mutual

/-- Parse one JSON value. -/
def parseJVal : Nat → List Char → Option (JVal × List Char)
  | 0, _ => none
  | fuel + 1, cs =>
    match skipWs cs with
    | 'n' :: 'u' :: 'l' :: 'l' :: rest => some (.null, rest)
    | 't' :: 'r' :: 'u' :: 'e' :: rest => some (.bool true, rest)
    | 'f' :: 'a' :: 'l' :: 's' :: 'e' :: rest => some (.bool false, rest)
    | '"' :: rest =>
      (parseJStr rest).map fun p => (.str ⟨p.1⟩, p.2)
    | '[' :: rest =>
      (match skipWs rest with
       | ']' :: r2 => some (.arr [], r2)
       | _ => (parseJArr fuel rest).map fun p => (.arr p.1, p.2))
    | '{' :: rest =>
      (match skipWs rest with
       | '}' :: r2 => some (.obj [], r2)
       | _ => (parseJObj fuel rest).map fun p => (.obj p.1, p.2))
    | '-' :: rest =>
      (parseNumCore rest).map fun p => (.num (-p.1) p.2.1, p.2.2)
    | c :: rest =>
      if c.isDigit then
        (parseNumCore (c :: rest)).map fun p => (.num p.1 p.2.1, p.2.2)
      else none
    | [] => none

/-- Parse the non-empty element list of a JSON array (after `[`),
consuming the closing `]`. -/
def parseJArr : Nat → List Char → Option (List JVal × List Char)
  | 0, _ => none
  | fuel + 1, cs =>
    match parseJVal fuel cs with
    | none => none
    | some (v, rest) =>
      match skipWs rest with
      | ',' :: r2 =>
        (parseJArr fuel r2).map fun p => (v :: p.1, p.2)
      | ']' :: r2 => some ([v], r2)
      | _ => none

/-- Parse the non-empty member list of a JSON object (after `{`),
consuming the closing `}`. -/
def parseJObj : Nat → List Char → Option (List (String × JVal) × List Char)
  | 0, _ => none
  | fuel + 1, cs =>
    match skipWs cs with
    | '"' :: rest =>
      match parseJStr rest with
      | none => none
      | some (key, r1) =>
        match skipWs r1 with
        | ':' :: r2 =>
          match parseJVal fuel r2 with
          | none => none
          | some (v, r3) =>
            match skipWs r3 with
            | ',' :: r4 =>
              (parseJObj fuel r4).map fun p => ((⟨key⟩, v) :: p.1, p.2)
            | '}' :: r4 => some ([(⟨key⟩, v)], r4)
            | _ => none
        | _ => none
    | _ => none

end

/-- Model of Python `json.loads` on a string argument: `none` models a
raised `json.JSONDecodeError` (a `ValueError`). -/
def json_loads (s : String) : Option JVal :=
  match parseJVal (s.data.length + 1) s.data with
  | some (v, rest) => if (skipWs rest).isEmpty then some v else none
  | none => none

/-! Section: Models of the precompiled regular expressions

All patterns in `constants/regex.py` have the shape
`literal  gap  literal` with a non-greedy gap (`[\s\S]*?` or `.*?`), except
`DOWNLOAD` whose gap is a greedy `[\S]*`.  `findall` semantics: scan start
positions left to right, at a matching start take the shortest gap, then
continue after the match (non-overlapping). -/

/-- Find the earliest occurrence of `post`, returning the gap before it and
the rest after it; with `allowNl = false` (a `.` gap, as in `KEY`) the gap
may not contain a newline. -/
def findGap (post : List Char) (allowNl : Bool) :
    List Char → Option (List Char × List Char)
  | [] => if post.isEmpty then some ([], []) else none
  | c :: cs2 =>
    if post.isPrefixOf (c :: cs2) then some ([], (c :: cs2).drop post.length)
    else if !allowNl && c = '\n' then none
    else (findGap post allowNl cs2).map fun p => (c :: p.1, p.2)

/-- Worker for `scanBetween`; fuel as in `pySplitGo` (the pattern prefix is
non-empty at every use site, so every recursive call consumes at least one
character). -/
def scanBetweenGo (pre post : List Char) (allowNl : Bool) :
    Nat → List Char → List (List Char)
  | 0, _ => []
  | _ + 1, [] => []
  | fuel + 1, c :: cs =>
    if pre.isPrefixOf (c :: cs) then
      match findGap post allowNl ((c :: cs).drop pre.length) with
      | some (gap, rest) => gap :: scanBetweenGo pre post allowNl fuel rest
      | none => scanBetweenGo pre post allowNl fuel cs
    else scanBetweenGo pre post allowNl fuel cs

/-- Model: `findall` for a pattern `pre (gap)?? post`, returning the gap of each
non-overlapping leftmost-shortest match. -/
def scanBetween (pre post : String) (allowNl : Bool) (cs : List Char) :
    List (List Char) :=
  scanBetweenGo pre.data post.data allowNl (cs.length + 1) cs

/-- Model: `SCRIPT.findall`: full matches of
`AF_initDataCallback[\s\S]*?<\/script`. -/
def scriptFindall (cs : List Char) : List (List Char) :=
  (scanBetween "AF_initDataCallback" "</script" true cs).map
    fun gap => "AF_initDataCallback".data ++ gap ++ "</script".data

/-- Model: `KEY.findall`: the captured group of `(ds:.*?)\x27` (the group includes
the literal `ds:`; the gap may not span a newline). -/
def keyFindall (cs : List Char) : List (List Char) :=
  (scanBetween "ds:" "\x27" false cs).map fun gap => "ds:".data ++ gap

/-- Model: `VALUE.findall`: the captured group of
`data:([\s\S]*?), sideChannel: \x7b\x7d\x7d\);<\/`. -/
def valueFindall (cs : List Char) : List (List Char) :=
  scanBetween "data:" ", sideChannel: \x7b\x7d\x7d);</" true cs

/-- Model: `BUTTON.findall`: full matches of `<button[\s\S]*?<\/button>`. -/
def buttonFindall (cs : List Char) : List (List Char) :=
  (scanBetween "<button" "</button>" true cs).map
    fun gap => "<button".data ++ gap ++ "</button>".data

/-- Model: `OFFER.findall`: full matches of
`<span itemprop="offers"[\s\S]*?<\/span>`. -/
def offerFindall (cs : List Char) : List (List Char) :=
  (scanBetween "<span itemprop=\x22offers\x22" "</span>" true cs).map
    fun gap => "<span itemprop=\x22offers\x22".data ++ gap ++ "</span>".data

/-- At one start position, match the greedy tail `[\S]*>` of `DOWNLOAD`:
take the maximal non-whitespace run, then backtrack to the last position
inside it that is followed by `>` (the `>` may itself be part of the run). -/
def downloadTail (cs : List Char) : Option (List Char × List Char) :=
  let w := cs.takeWhile fun c => !pyIsWs c
  let rest := cs.drop w.length
  match (w.reverse.takeWhile fun c => c ≠ '>'), w.reverse.dropWhile fun c => c ≠ '>' with
  | _, [] => none
  | after, _ :: revp =>
    -- the matched text is `revp.reverse ++ ['>']`; what follows resumes
    -- with the dropped tail of the run and then `rest`
    some (revp.reverse ++ ['>'], after.reverse ++ rest)

/-- Worker for `downloadFindall`; fuel as in `scanBetweenGo`. -/
def downloadFindallGo (pre : List Char) : Nat → List Char → List (List Char)
  | 0, _ => []
  | _ + 1, [] => []
  | fuel + 1, c :: cs =>
    if pre.isPrefixOf (c :: cs) then
      match downloadTail ((c :: cs).drop pre.length) with
      | some (body, rest) => (pre ++ body) :: downloadFindallGo pre fuel rest
      | none => downloadFindallGo pre fuel cs
    else downloadFindallGo pre fuel cs

/-- Model: `DOWNLOAD.findall`: full matches of
`<meta itemprop="url" content=[\S]*>`. -/
def downloadFindall (cs : List Char) : List (List Char) :=
  downloadFindallGo "<meta itemprop=\x22url\x22 content=".data (cs.length + 1) cs

/-! Section: `mpyscraper/element.py` -/

/-- Model: `element.nested_lookup`: recursively look up an item in a nested list,
with the Python evaluation order (`if not source` first, then the
one-index case, then the bounds check `indexes[0] >= len(source)` which
short-circuits to `None`, then one descent step). -/
def nested_lookup (source : JVal) : List Int → Except PyExc JVal
  | [] =>
    if truthy source = false then .ok source
    else .error .indexError
  | [i] =>
    if truthy source = false then .ok source
    else pyIndex source i
  | i :: j :: rest =>
    if truthy source = false then .ok source
    else do
      let n ← pyLen source
      if i ≥ n then .ok .null
      else do
        let nxt ← pyIndex source i
        nested_lookup nxt (j :: rest)

/-- Model: `element.ElementSpec`: dataset number, index path, optional
post-processor (an arbitrary Python callable, which may raise) and the
fallback substituted when post-processing raises (default `None`). -/
structure ElementSpec where
  ds_num : Int
  extraction_map : List Int
  post_processor : Option (JVal → Except PyExc JVal) := none
  post_processor_except_fallback : JVal := .null

/-- The exception classes caught by `ElementSpec.extract_content` around
`nested_lookup`: `(KeyError, IndexError, TypeError)`. -/
def caughtExc : PyExc → Bool
  | .keyError => true
  | .indexError => true
  | .typeError => true
  | _ => false

/-- The raw lookup step of `extract_content`:
`nested_lookup(source["ds:N"], extraction_map)`. -/
def rawLookup (ds_num : Int) (extraction_map : List Int)
    (source : List (String × JVal)) : Except PyExc JVal :=
  match pyDictGet source ("ds:" ++ toString ds_num) with
  | .error e => .error e
  | .ok v => nested_lookup v extraction_map

/-- Model: `ElementSpec.extract_content`: the raw lookup with
`(KeyError, IndexError, TypeError)` caught as `None`; then, if the result
is not `None` and a post-processor is declared, apply it, substituting the
declared fallback when it raises (bare `except`). -/
def ElementSpec.extract_content (sp : ElementSpec)
    (source : List (String × JVal)) : Except PyExc JVal :=
  let r1 : Except PyExc JVal :=
    match rawLookup sp.ds_num sp.extraction_map source with
    | .error e => if caughtExc e then .ok .null else .error e
    | .ok v => .ok v
  match r1 with
  | .error e => .error e
  | .ok v =>
    match sp.post_processor with
    | some pp =>
      if v.isNull then .ok v
      else
        match pp v with
        | .ok w => .ok w
        | .error _ => .ok sp.post_processor_except_fallback
    | none => .ok v

/-- The `CLUSTER` element specifications of `element.py`. -/
def CLUSTER_apps : ElementSpec := { ds_num := 3, extraction_map := [0, 1, 0, 0, 0] }

/-- The `CLUSTER["token"]` element specification of `element.py`. -/
def CLUSTER_token : ElementSpec := { ds_num := 3, extraction_map := [0, 1, 0, 0, 7, 1] }

/-! Section: `utils._parse_response` -/

/-- The `(key, payload)` pairs scanned by `_parse_response`: for each
`SCRIPT` block, the first `KEY` match and first `VALUE` match, kept only
when both exist. -/
def blockPairs (dom : String) : List (String × String) :=
  (scriptFindall dom.data).filterMap fun block =>
    match keyFindall block, valueFindall block with
    | k :: _, v :: _ => some (⟨k⟩, ⟨v⟩)
    | _, _ => none

/-- The accumulating loop of `_parse_response`: decode each payload with
`json.loads` and assign into the result dict; a payload that fails to
decode raises (`json.JSONDecodeError`, a `ValueError`), aborting the loop. -/
def parseResponseGo : List (String × String) → List (String × JVal) →
    Except PyExc (List (String × JVal))
  | [], acc => .ok acc
  | (k, payload) :: rest, acc =>
    match json_loads payload with
    | none => .error .valueError
    | some v => parseResponseGo rest (pyDictInsert acc k v)

/-- Model: `utils._parse_response`: scan the body for script blocks, extract the
`(dataset key, JSON payload)` pair of each block whose two patterns both
match, and decode each payload into the result dict. -/
def parse_response (dom : String) : Except PyExc (List (String × JVal)) :=
  parseResponseGo (blockPairs dom) []

/-- Specification-level restatement of the (amended) `_parse_response`
contract, written from the amended claim: if every matched payload decodes
as JSON the result maps the key of each both-matching block to its decoded
payload (later assignments to the same key overwriting); if any matched
payload fails to decode, the whole parse raises a `ValueError`. -/
def parse_response_spec (dom : String) : Except PyExc (List (String × JVal)) :=
  let pairs := blockPairs dom
  if pairs.all fun p => (json_loads p.2).isSome then
    .ok (pairs.foldl (fun acc p => pyDictInsert acc p.1 ((json_loads p.2).getD .null)) [])
  else .error .valueError

/-! Section: `utils._parse_app_list`, `utils._get_ui_request`,
`utils._cluster_request` -/

/-- Model: `utils._parse_app_list` with `detail=False` and `num=None` (as called
by `_cluster_request`): iterate the value and take
`nested_lookup(app, [12, 0])` of every element; iterating a non-iterable
or a raising lookup propagates. -/
def parse_app_list (apps : JVal) : Except PyExc (List JVal) := do
  let items ← pyIter apps
  items.mapM fun a => nested_lookup a [12, 0]

/-- Python `resp[5:]` on a string. -/
def strDropFive (s : String) : String :=
  ⟨s.data.drop 5⟩

/-- The tail of `_get_ui_request` once the retry loop has exited without
the transient marker:
`json.loads(nested_lookup(json.loads(resp[5:]), [0, 2]))`
(`json.loads` of a non-string raises `TypeError`). -/
def uiFinish (resp : String) : Except PyExc JVal := do
  let v1 ← match json_loads (strDropFive resp) with
    | some v => Except.ok v
    | none => Except.error PyExc.valueError
  let inner ← nested_lookup v1 [0, 2]
  let s ← match inner with
    | JVal.str s => Except.ok s
    | _ => Except.error PyExc.typeError
  match json_loads s with
  | some v => Except.ok v
  | none => Except.error PyExc.valueError

/-- The `while resp.find("PlayDataError") != -1` retry loop of
`_get_ui_request`.  `fetches n` is the body returned by the `n`-th
`_request` issued for this call (the `0`-th being the initial request).
The first fuel argument only serves termination; it starts at `6` while
`retry` starts at `0` and the loop stops at `retry = 5`, so the fuel never
runs out. -/
def uiLoop (fetches : Nat → Except PyExc String) :
    Nat → Nat → String → Except PyExc JVal
  | 0, _, resp => .ok (.str resp)
  | fuel + 1, retry, resp =>
    if containsSub "PlayDataError" resp then
      if retry = 5 then .ok (.str resp)
      else
        match fetches (retry + 1) with
        | .error e => .error e
        | .ok r2 => uiLoop fetches fuel (retry + 1) r2
    else uiFinish resp

/-- Model: `utils._get_ui_request` with the POST body abstracted away (it does not
affect control flow): issue the initial request, run the transient-marker
retry loop, then decode.  Giving up at `retry = 5` returns the raw
response string (a Python `str`). -/
def get_ui_request (fetches : Nat → Except PyExc String) : Except PyExc JVal :=
  match fetches 0 with
  | .error e => .error e
  | .ok r0 => uiLoop fetches 6 0 r0

/-- The `while token:` continuation loop of `_cluster_request`, wrapped in
`try: ... except: return results`.  `oracle k` is the value returned (or
exception raised) by `_get_ui_request` on the `k`-th loop iteration.  The
fuel argument only serves termination of the model (the Python loop may in
principle run forever); all theorems hold for every fuel.  Note the order
of effects: the page is appended to `results` before the next token is
looked up, and any raise returns the results accumulated so far. -/
def cluster_loop (oracle : Nat → Except PyExc JVal) :
    Nat → Nat → List JVal → JVal → List JVal
  | 0, _, results, _ => results
  | fuel + 1, k, results, token =>
    if truthy token then
      match oracle k with
      | .error _ => results
      | .ok resp =>
        match nested_lookup resp [0, 0, 0] with
        | .error _ => results
        | .ok apps =>
          match parse_app_list apps with
          | .error _ => results
          | .ok page =>
            let results2 := results ++ page
            match nested_lookup resp [0, 0, 7, 1] with
            | .error _ => results2
            | .ok token2 => cluster_loop oracle fuel (k + 1) results2 token2
    else results

/-- Model: `utils._cluster_request`: fetch and parse the seed page (here `dom` is
the already-fetched seed body; a raise in the seed phase propagates, being
outside the `try`), extract the seed app list and token through the
`CLUSTER` specifications, then run the continuation loop.
`uiFetch k n` is the body of the `n`-th `_request` issued by the
`_get_ui_request` call of loop iteration `k`. -/
def cluster_request (fuel : Nat) (dom : String)
    (uiFetch : Nat → Nat → Except PyExc String) : Except PyExc (List JVal) := do
  let res ← parse_response dom
  let apps ← CLUSTER_apps.extract_content res
  let token ← CLUSTER_token.extract_content res
  let results ← parse_app_list apps
  Except.ok (cluster_loop (fun k => get_ui_request (uiFetch k)) fuel 0 results token)

/-! Section: `utils._download_link` and `api.details` -/

/-- The per-button body of `_download_link` once a button block with an
`OFFER` match is found: `DOWNLOAD.findall(i)[0]` (raising `IndexError`
when absent), then the chain of `replace`/`split` string operations and
the probe for the text ` disabled>` in the block. -/
def downloadFromButton (button : List Char) : Except PyExc (JVal × JVal) :=
  match downloadFindall button with
  | [] => .error .indexError
  | d :: _ =>
    let d1 := replaceSub ⟨d⟩ ">" ""
    match (pySplit d1 "content=")[1]? with
    | none => .error .indexError
    | some link0 =>
      let linkDisabled := containsSub " disabled>" ⟨button⟩
      let link1 := replaceSub link0 "\x22" ""
      let link2 := replaceSub link1 "amp;" ""
      if linkDisabled then .ok (.str link2, .bool false)
      else .ok (.str link2, .bool true)

/-- The `for i in button:` loop of `_download_link`: the first button block
containing an offers span decides the result; with no such block the
result is `(None, None)`. -/
def downloadLinkGo : List (List Char) → Except PyExc (JVal × JVal)
  | [] => .ok (.null, .null)
  | b :: rest =>
    if (offerFindall b).isEmpty then downloadLinkGo rest
    else downloadFromButton b

/-- Model: `utils._download_link`. -/
def download_link (dom : String) : Except PyExc (JVal × JVal) :=
  downloadLinkGo (buttonFindall dom.data)

/-- The comparison fold of `max(res.keys(), key=...)`: evaluates the key
function on every element (so `int` may raise `ValueError` on a key whose
`lstrip("ds:")` remainder is non-numeric) and keeps the first element
among ties. -/
def maxDsKeyGo : List String → String → Int → Except PyExc String
  | [], best, _ => .ok best
  | k :: ks, best, bv => do
    let v ← pyInt (pyLstrip ['d', 's', ':'] k)
    if v > bv then maxDsKeyGo ks k v else maxDsKeyGo ks best bv

/-- Model: `max(res.keys(), key=lambda x: int(x.lstrip("ds:")))`: Python `max`
raises `ValueError` on an empty sequence; otherwise `maxDsKeyGo` folds the
comparison. -/
def maxDsKey : List String → Except PyExc String
  | [] => .error .valueError
  | k0 :: rest => do
    let v0 ← pyInt (pyLstrip ['d', 's', ':'] k0)
    maxDsKeyGo rest k0 v0

/-- The `details` URL built by `_build_url("details", ...)` with no
language/country parameters. -/
def details_url (app_id : String) : String :=
  "https://play.google.com/store/apps/details?id=" ++ app_id

/-- Model: `api.details` on an already-fetched body `dom`, parameterised by the
field-specification registry (`DETAIL` in `element.py`; the theorems below
hold for every registry, the registry being static configuration): parse
the response, pick the dataset with the highest key, read the site
location and language from it (`[4]` and `[5]`), extract every registry
field, then the download link, and assemble the result dict. -/
def details_from_dom (registry : List (String × ElementSpec)) (app_id : String)
    (dom : String) : Except PyExc (List (String × JVal)) := do
  let res ← parse_response dom
  let locKey ← maxDsKey (res.map fun p => p.1)
  let locVal ← pyDictGet res locKey
  let siteLocation ← pyIndex locVal 4
  let siteLanguage ← pyIndex locVal 5
  let base := [("appId", JVal.str app_id), ("url", JVal.str (details_url app_id)),
               ("siteLocation", siteLocation), ("siteLanguage", siteLanguage)]
  let fields ← registry.mapM fun p => do
    let v ← p.2.extract_content res
    Except.ok (p.1, v)
  let dl ← download_link dom
  let entries := base ++ fields ++ [("downloadLink", dl.1), ("downloadLinkEnabled", dl.2)]
  Except.ok (entries.foldl (fun acc p => pyDictInsert acc p.1 p.2) [])

/-! Section: `metadata_crawl.py` -/

mutual

/-- Python `repr(v)` (strings quoted), used for container elements. -/
def pyReprVal : JVal → String
  | .null => "None"
  | .bool true => "True"
  | .bool false => "False"
  | .num m e => if e = 0 then toString m else toString m ++ "e" ++ toString e
  | .str s => "\x27" ++ s ++ "\x27"
  | .arr xs => "[" ++ String.intercalate ", " (pyReprList xs) ++ "]"
  | .obj fs => "\x7b" ++ String.intercalate ", " (pyReprFields fs) ++ "\x7d"

/-- Model: `repr` of each list element. -/
def pyReprList : List JVal → List String
  | [] => []
  | v :: vs => pyReprVal v :: pyReprList vs

/-- Model: `repr` of each dict member. -/
def pyReprFields : List (String × JVal) → List String
  | [] => []
  | (k, v) :: fs => ("\x27" ++ k ++ "\x27: " ++ pyReprVal v) :: pyReprFields fs

end

/-- Python `str(v)` as used by `str.format` interpolation on the modelled
values. -/
def pyFormatVal : JVal → String
  | .null => "None"
  | .bool true => "True"
  | .bool false => "False"
  | .num m e => if e = 0 then toString m else toString m ++ "e" ++ toString e
  | .str s => s
  | .arr xs => "[" ++ String.intercalate ", " (pyReprList xs) ++ "]"
  | .obj fs => "\x7b" ++ String.intercalate ", " (pyReprFields fs) ++ "\x7d"

/-- Python `str(bool(v))`, as produced when a `bool` is interpolated by
`str.format`. -/
def pyBoolStr (b : Bool) : String :=
  if b then "True" else "False"

/-- The reduced-metadata row built by `try_metadata` in
`metadata_crawl.get_metadata`: the `reduced_metadata` dict is filled from
the extracted record (`dl`/`dle` through `bool(...)`), and the row is one
of the two format strings depending on the truthiness of `released`. -/
def try_metadata_row (app : String) (version updated released dl0 dle0 : JVal) :
    String :=
  if truthy released then
    app ++ "," ++ pyFormatVal version ++ "," ++ pyFormatVal updated ++
      "," ++ "\x22" ++ pyFormatVal released ++ "\x22" ++ "," ++
      pyBoolStr (truthy dl0) ++ "," ++ pyBoolStr (truthy dle0) ++ "\n"
  else
    app ++ "," ++ pyFormatVal version ++ "," ++ pyFormatVal updated ++
      "," ++ pyFormatVal released ++ "," ++ pyBoolStr (truthy dl0) ++ "," ++
      pyBoolStr (truthy dle0) ++ "\n"

/-- The row shape the claim asserts (written from the words of the claim):
six comma-separated fields, `released` quoted when present, and the two
boolean fields rendered as the strings `true` and `false`. -/
def claimed_metadata_row (app : String) (version updated released dl0 dle0 : JVal) :
    String :=
  let renderBool : Bool → String := fun b => if b then "true" else "false"
  let releasedField :=
    if truthy released then "\x22" ++ pyFormatVal released ++ "\x22"
    else pyFormatVal released
  String.intercalate ","
    [app, pyFormatVal version, pyFormatVal updated, releasedField,
     renderBool (truthy dl0), renderBool (truthy dle0)] ++ "\n"

/-- The row shape actually produced (the amended claim): as above but with
the Python `True`/`False` capitalisation. -/
def amended_metadata_row (app : String) (version updated released dl0 dle0 : JVal) :
    String :=
  if truthy released then
    String.intercalate ","
      [app, pyFormatVal version, pyFormatVal updated,
       "\x22" ++ pyFormatVal released ++ "\x22",
       pyBoolStr (truthy dl0), pyBoolStr (truthy dle0)] ++ "\n"
  else
    String.intercalate ","
      [app, pyFormatVal version, pyFormatVal updated, pyFormatVal released,
       pyBoolStr (truthy dl0), pyBoolStr (truthy dle0)] ++ "\n"

/-- Model: `metadata_crawl.read_apps` accumulator loop: strip each line, skip it
when it starts with `#` or has been seen, otherwise keep it and remember
it. -/
def readAppsGo : List String → List String → List String
  | [], _ => []
  | l :: rest, seen =>
    let app := pyStrip l
    if app.data.head? = some '#' ∨ app ∈ seen then
      readAppsGo rest seen
    else
      app :: readAppsGo rest (app :: seen)

/-- Model: `metadata_crawl.read_apps` on the lines of the file. -/
def read_apps (lines : List String) : List String :=
  readAppsGo lines []

/-! Section: `apk-downloader/crawler.py` -/

/-- The line filter of `crawler.read_input_apps` (file branch):
`line and line[0] != "#"` on the stripped lines. -/
def read_input_apps (lines : List String) : List String :=
  (lines.map pyStrip).filter fun l =>
    match l.data with
    | [] => false
    | c :: _ => c ≠ '#'

/-- The duplicate-skipping queue-population loop of `crawler.crawl`
(`unique` set semantics, first occurrence wins). -/
def crawlQueueGo : List String → List String → List String
  | [], _ => []
  | a :: rest, seen =>
    if a ∈ seen then crawlQueueGo rest seen
    else a :: crawlQueueGo rest (a :: seen)

/-- The identifiers actually put on `DOWNLOAD_QUEUE` by `crawler.crawl`
from an app list. -/
def crawl_queue (apps : List String) : List String :=
  crawlQueueGo apps []

/-- The `ERRORS` classification of `crawler.execute`: first matching
message fragment wins (Python dict iteration is insertion-ordered), with
transient default `15`. -/
def classify (msg : String) : Nat :=
  if containsSub "Item not found" msg then 1
  else if containsSub "Your device is not compatible with this item" msg then 2
  else if containsSub "The Play Store application on your device is outdated" msg then 4
  else if containsSub "Google Play purchases are not supported in your country" msg then 5
  else if containsSub "This item is not available on your service provider" msg then 8
  else if containsSub "Rate limit triggered" msg then 14
  else 15

/-- The value returned by `crawler.execute` (Python returns `True`,
`False`, or falls through to `None`), or the exception it raises. -/
inductive ExecRet where
  | rTrue
  | rFalse
  | rNone
  | raised (e : PyExc)
deriving DecidableEq, Repr

/-- The observable effect of one `crawler.execute` call: its return value,
the `(app, message)` lines appended to the failure and transient files,
and the items put back on the download queue.  (A file line `(a, m)`
renders as `a ++ ": " ++ m`.) -/
structure ExecOut where
  ret : ExecRet
  fail : List (String × String)
  trans : List (String × String)
  requeue : List (String × Bool × Option (Nat × String))
deriving DecidableEq, Repr

/-- Model: `crawler.execute` given the outcome of the `download` call
(`none` = success, `some msg` = `DownloadException` with message `msg`):
configuration/credential errors return `False` immediately; otherwise the
error is classified, transient errors (code &ge; 10) are logged to the
transient file; on a retry the two classifications are compared (the
failure-file line records `str(e).split(": ")[1]`, which raises
`IndexError` when the message has no `": "`); on a first failure the item
is re-queued carrying `(code, msg)`. -/
def execute (app : String) (isRetry : Bool) (previous : Option (Nat × String))
    (dres : Option String) : ExecOut :=
  match dres with
  | none => ⟨.rTrue, [], [], []⟩
  | some msg =>
    if containsSub "configuration file" msg || containsSub "credentials" msg then
      ⟨.rFalse, [], [], []⟩
    else
      let code := classify msg
      let trans : List (String × String) := if 10 ≤ code then [(app, msg)] else []
      if isRetry then
        match previous with
        | none => ⟨.raised .typeError, [], trans, []⟩
        | some (pcode, pmsg) =>
          if code < 10 then
            match (pySplit msg ": ")[1]? with
            | some t => ⟨.rTrue, [(app, t)], trans, []⟩
            | none => ⟨.raised .indexError, [], trans, []⟩
          else if pcode < 10 then
            match (pySplit pmsg ": ")[1]? with
            | some t => ⟨.rTrue, [(app, t)], trans, []⟩
            | none => ⟨.raised .indexError, [], trans, []⟩
          else ⟨.rFalse, [], trans, []⟩
      else ⟨.rNone, [], trans, [(app, true, some (code, msg))]⟩

/-- The persisted output state of one `crawler.crawl` run: the lines of
`finished.txt`, and the `(app, message)` lines of `failure.txt` and
`transient.txt`. -/
structure CrawlState where
  finished : List String
  fail : List (String × String)
  trans : List (String × String)
deriving DecidableEq, Repr

/-- The `while not DOWNLOAD_QUEUE.empty()` loop of `crawler.crawl`:
dequeue an item, run `execute` (with `dl app isRetry` the download outcome
for that attempt), append the app to `finished.txt` exactly when `execute`
returned `True`, and push any re-queued item to the back of the FIFO
queue.  An exception raised out of `execute` (not an `OSError`) escapes
the loop; the state written so far is returned alongside it.  The fuel
only serves termination of the model; every item re-enters the queue at
most once, so `2 * queue length` fuel reproduces the Python loop. -/
def crawlLoop (dl : String → Bool → Option String) :
    Nat → List (String × Bool × Option (Nat × String)) → CrawlState →
    CrawlState × Option PyExc
  | 0, _, st => (st, none)
  | _ + 1, [], st => (st, none)
  | fuel + 1, (app, isRetry, previous) :: rest, st =>
    let out := execute app isRetry previous (dl app isRetry)
    let st2 : CrawlState :=
      { finished := st.finished ++ (if out.ret = .rTrue then [app] else [])
        fail := st.fail ++ out.fail
        trans := st.trans ++ out.trans }
    match out.ret with
    | .raised e => (st2, some e)
    | _ => crawlLoop dl fuel (rest ++ out.requeue) st2

/-! Section: Claim-level definitions -/

/-- The per-field record assembly of `api.details`
(`for key, spec in DETAIL.items(): result[key] = spec.extract_content(res)`),
with the outcome of each field kept separately. -/
def buildRecord (registry : List (String × ElementSpec))
    (source : List (String × JVal)) : List (String × Except PyExc JVal) :=
  registry.map fun p => (p.1, p.2.extract_content source)

/-- Model: "Error `m` is the final recorded failure for `app`": `execute` reports
the item finished (return `True`, so `crawl` also logs it) and the failure
file receives exactly one line for `app` carrying the text of `m` after
its first `": "` separator (`m.split(": ")[1]`). -/
def finalRecordedFailure (app m : String) (out : ExecOut) : Prop :=
  out.ret = ExecRet.rTrue ∧
    ∃ t, (pySplit m ": ")[1]? = some t ∧ out.fail = [(app, t)]

/-- Model: "The item is abandoned": `execute` returns `False` (so `crawl` does not
log it as finished), writes no failure-file line, and does not re-queue. -/
def abandonedOutcome (out : ExecOut) : Prop :=
  out.ret = ExecRet.rFalse ∧ out.fail = [] ∧ out.requeue = []

/-- The retry classification table of the claim, as a predicate on the
outcome of a second attempt whose download failed with message `msg`,
the first attempt having been classified `(pc, pm)`: a permanent second
error (code below 10) is the final recorded failure; otherwise a permanent
first error is; otherwise the item is abandoned. -/
def followsRetryTable (app : String) (pc : Nat) (pm msg : String)
    (out : ExecOut) : Prop :=
  if classify msg < 10 then finalRecordedFailure app msg out
  else if pc < 10 then finalRecordedFailure app pm out
  else abandonedOutcome out

/-- A response body with two script blocks: the payload `[1]` of the
`ds:1` block decodes, the payload `[` of the `ds:2` block does not. -/
def domTwoBlocks : String :=
  "AF_initDataCallback(\x7bkey: \x27ds:1\x27, data:[1], sideChannel: \x7b\x7d\x7d);</script>AF_initDataCallback(\x7bkey: \x27ds:2\x27, data:[, sideChannel: \x7b\x7d\x7d);</script>"

/-- The response body of `domTwoBlocks` with the bad block removed. -/
def domOneBlock : String :=
  "AF_initDataCallback(\x7bkey: \x27ds:1\x27, data:[1], sideChannel: \x7b\x7d\x7d);</script>"

/-- A seed page for pagination whose `ds:3` dataset yields one app
(`id1`, at `[0, 1, 0, 0, 0]` then `[12, 0]`) and a continuation token
(`TOK`, at `[0, 1, 0, 0, 7, 1]`). -/
def domSeedPage : String :=
  "AF_initDataCallback(\x7bkey: \x27ds:3\x27, data:[[null,[[[[[0,0,0,0,0,0,0,0,0,0,0,0,[\x22id1\x22]]],0,0,0,0,0,0,[null,\x22TOK\x22]]]]]], sideChannel: \x7b\x7d\x7d);</script>"

/-! Section: Helper lemmas -/

/-- Model: `do`-bind on a successful `Except` computation. -/
theorem exceptBindOk {α β : Type} (a : α) (f : α → Except PyExc β) :
    (Except.ok a >>= f) = f a := rfl

/-- Model: `do`-bind on a failed `Except` computation. -/
theorem exceptBindErr {α β : Type} (e : PyExc) (f : α → Except PyExc β) :
    ((Except.error e : Except PyExc α) >>= f) = Except.error e := rfl

/-- Model: `pyIndex` only raises exceptions that `extract_content` catches. -/
theorem pyIndex_caught (v : JVal) (i : Int) (e : PyExc)
    (h : pyIndex v i = .error e) : caughtExc e = true := by
  have he : e = .keyError ∨ e = .indexError ∨ e = .typeError := by
    cases v <;> simp only [pyIndex, pyListIndex] at h <;>
      (repeat' split at h) <;> simp_all
  rcases he with he | he | he <;> subst he <;> rfl

/-- Model: `pyLen` only raises `TypeError`. -/
theorem pyLen_caught (v : JVal) (e : PyExc)
    (h : pyLen v = .error e) : caughtExc e = true := by
  cases v <;> simp only [pyLen, Except.error.injEq] at h
  all_goals first
    | (rw [← h]; rfl)
    | exact absurd h (by simp)

/-- Model: `nested_lookup` only raises exceptions that `extract_content`
catches (`KeyError`, `IndexError`, `TypeError`). -/
theorem nested_lookup_caught (idxs : List Int) :
    ∀ (v : JVal) (e : PyExc), nested_lookup v idxs = .error e →
      caughtExc e = true := by
  induction idxs with
  | nil =>
    intro v e h
    unfold nested_lookup at h
    split at h
    · exact absurd h (by simp)
    · simp only [Except.error.injEq] at h
      rw [← h]; rfl
  | cons i rest ih =>
    intro v e h
    cases rest with
    | nil =>
      unfold nested_lookup at h
      split at h
      · exact absurd h (by simp)
      · exact pyIndex_caught _ _ _ h
    | cons j rest2 =>
      unfold nested_lookup at h
      split at h
      · exact absurd h (by simp)
      · cases hn : pyLen v with
        | error e2 =>
          rw [hn, exceptBindErr] at h
          simp only [Except.error.injEq] at h
          rw [← h]
          exact pyLen_caught _ _ hn
        | ok n =>
          rw [hn, exceptBindOk] at h
          split at h
          · exact absurd h (by simp)
          · cases hx : pyIndex v i with
            | error e3 =>
              rw [hx, exceptBindErr] at h
              simp only [Except.error.injEq] at h
              rw [← h]
              exact pyIndex_caught _ _ _ hx
            | ok nxt =>
              rw [hx, exceptBindOk] at h
              exact ih nxt e h

/-- Model: `rawLookup` only raises caught exceptions. -/
theorem rawLookup_caught (d : Int) (m : List Int) (source : List (String × JVal))
    (e : PyExc) (h : rawLookup d m source = .error e) : caughtExc e = true := by
  unfold rawLookup at h
  cases hd : pyDictGet source ("ds:" ++ toString d) with
  | error e2 =>
    rw [hd] at h
    cases h
    unfold pyDictGet at hd
    split at hd
    · exact absurd hd (by simp)
    · simp only [Except.error.injEq] at hd
      rw [← hd]; rfl
  | ok v =>
    rw [hd] at h
    exact nested_lookup_caught _ _ _ h

/-- Model: `extract_content` never raises. -/
theorem extract_content_total (sp : ElementSpec) (source : List (String × JVal)) :
    ∃ v, sp.extract_content source = Except.ok v := by
  unfold ElementSpec.extract_content
  cases hr : rawLookup sp.ds_num sp.extraction_map source with
  | error e =>
    have hc := rawLookup_caught _ _ _ _ hr
    cases hpp : sp.post_processor <;> simp [hc, JVal.isNull, hpp]
  | ok v =>
    cases hpp : sp.post_processor with
    | none => exact ⟨v, by simp [hpp]⟩
    | some pp =>
      by_cases hn : v.isNull
      · exact ⟨v, by simp [hpp, hn]⟩
      · cases hv : pp v with
        | ok w => exact ⟨w, by simp [hpp, hn, hv]⟩
        | error e2 =>
          exact ⟨sp.post_processor_except_fallback, by simp [hpp, hn, hv]⟩

/-! Section: Claim C4 -/

/-- C4 (amended): `extract_content` is total — for every dataset map and
every field specification it returns a value and never raises; a dataset
key missing from the map yields `None`.  (As the counterexample shows, an
index path that runs into a falsy value — e.g. past the end of an *empty*
sequence — returns that falsy value rather than `None`, which is the one
amendment to the claim; all other out-of-range navigation yields `None`.) -/
theorem C4_extract_content_total (sp : ElementSpec) (source : List (String × JVal)) :
    ∃ v, sp.extract_content source = Except.ok v ∧
      (source.find? (fun p => p.1 == "ds:" ++ toString sp.ds_num) = none →
        v = JVal.null) := by
  cases hf : source.find? (fun p => p.1 == "ds:" ++ toString sp.ds_num) with
  | none =>
    have hraw : rawLookup sp.ds_num sp.extraction_map source =
        Except.error PyExc.keyError := by
      unfold rawLookup pyDictGet
      rw [hf]
    refine ⟨JVal.null, ?_, fun _ => rfl⟩
    unfold ElementSpec.extract_content
    rw [hraw]
    cases hpp : sp.post_processor <;> simp [hpp, JVal.isNull, caughtExc]
  | some p =>
    obtain ⟨v, hv⟩ := extract_content_total sp source
    exact ⟨v, hv, by simp [hf]⟩

/-- Witness for C4: the theorem applied at a concrete specification and
dataset map whose key is missing. -/
theorem C4_extract_content_total_witness :
    ∃ v, (ElementSpec.mk 7 [3, 1] none JVal.null).extract_content
        [("ds:1", JVal.arr [])] = Except.ok v ∧
      ([("ds:1", JVal.arr [])].find?
          (fun p => p.1 == "ds:" ++ toString (ElementSpec.mk 7 [3, 1] none JVal.null).ds_num) = none →
        v = JVal.null) :=
  C4_extract_content_total (ElementSpec.mk 7 [3, 1] none JVal.null)
    [("ds:1", JVal.arr [])]

/-- C4 counterexample: with dataset `ds:1` holding the empty sequence `[]`
and index path `[0]` — a path that runs past the end of a sequence — the
code returns the empty sequence itself, not `None`, refuting the clause
"returns absent (None)" for this input. -/
theorem C4_counterexample :
    (ElementSpec.mk 1 [0] none JVal.null).extract_content [("ds:1", JVal.arr [])] =
        Except.ok (JVal.arr []) ∧ JVal.arr [] ≠ JVal.null :=
  ⟨rfl, fun h => JVal.noConfusion h⟩

/-! Section: Claim C7 -/

/-- C7: for every field specification with a declared post-processor, if
the raw value is found (not `None`) and the post-processor raises, then
`extract_content` returns the declared fallback (default `None`) and never
propagates the exception; and record building is per-field, so the other
fields of the same record are exactly their own `extract_content` results,
unaffected by the failing field. -/
theorem C7_post_processor_fallback :
    (∀ (ds : Int) (path : List Int) (pp : JVal → Except PyExc JVal) (fb : JVal)
        (source : List (String × JVal)) (v : JVal) (e : PyExc),
        rawLookup ds path source = Except.ok v →
        v.isNull = false →
        pp v = Except.error e →
        (ElementSpec.mk ds path (some pp) fb).extract_content source =
          Except.ok fb)
    ∧ ∀ (registry1 registry2 : List (String × ElementSpec)) (n : String)
        (sp : ElementSpec) (source : List (String × JVal)),
        buildRecord (registry1 ++ (n, sp) :: registry2) source =
          buildRecord registry1 source ++
            (n, sp.extract_content source) :: buildRecord registry2 source := by
  constructor
  · intro ds path pp fb source v e hraw hn hpp
    unfold ElementSpec.extract_content
    simp only [hraw, hn, hpp]
    simp
  · intro r1 r2 n sp source
    simp [buildRecord]

/-- Witness for C7: a post-processor that always raises, with a declared
fallback, on a record where the raw value is found. -/
theorem C7_post_processor_fallback_witness :
    (ElementSpec.mk 1 [0] (some fun _ => Except.error PyExc.typeError)
        (JVal.str "FB")).extract_content [("ds:1", JVal.arr [JVal.num 7 0])] =
      Except.ok (JVal.str "FB") :=
  C7_post_processor_fallback.1 1 [0] (fun _ => Except.error PyExc.typeError)
    (JVal.str "FB") [("ds:1", JVal.arr [JVal.num 7 0])] (JVal.num 7 0)
    PyExc.typeError rfl rfl rfl

/-! Section: Claim C3 -/

/-- The incremental parse loop agrees with the all-or-nothing
specification-level description. -/
theorem parseResponseGo_spec (pairs : List (String × String)) :
    ∀ acc, parseResponseGo pairs acc =
      if pairs.all (fun p => (json_loads p.2).isSome) then
        Except.ok (pairs.foldl
          (fun acc p => pyDictInsert acc p.1 ((json_loads p.2).getD JVal.null)) acc)
      else Except.error PyExc.valueError := by
  induction pairs with
  | nil => intro acc; simp [parseResponseGo]
  | cons p rest ih =>
    intro acc
    obtain ⟨k, payload⟩ := p
    cases hj : json_loads payload with
    | none => simp [parseResponseGo, hj]
    | some v =>
      simp only [parseResponseGo, List.all_cons, List.foldl_cons, hj,
        Option.isSome_some, Bool.true_and, Option.getD_some]
      exact ih _

/-- C3 (amended): `parse_response` yields an entry for each script block
whose key and payload patterns both match — but only when *every* such
payload decodes as JSON; a payload that fails to decode raises a
`ValueError`, aborting the whole parse (rather than being dropped). -/
theorem C3_parse_response_amended (dom : String) :
    parse_response dom = parse_response_spec dom := by
  unfold parse_response parse_response_spec
  exact parseResponseGo_spec _ _

/-- C3 counterexample: a body with two blocks, the second of which carries
the undecodable payload `[`: the whole parse raises `ValueError` instead
of dropping the bad block, although the same body with only the good
block parses to the expected one-entry map. -/
theorem C3_counterexample :
    parse_response domTwoBlocks = Except.error PyExc.valueError ∧
    parse_response domOneBlock = Except.ok [("ds:1", JVal.arr [JVal.num 1 0])] :=
  ⟨rfl, rfl⟩

/-! Section: Claim C10 -/

/-- C10: for every response body on which the parser yields an empty
dataset map, `details` raises (`max()` of the empty key sequence raises a
`ValueError`) instead of returning an all-absent record, and the raised
exception is not one of the declared scraper exception
classes. -/
theorem C10_details_empty_map_fatal (registry : List (String × ElementSpec))
    (app_id dom : String) (h : parse_response dom = Except.ok []) :
    details_from_dom registry app_id dom = Except.error PyExc.valueError ∧
    isScraperException PyExc.valueError = false := by
  refine ⟨?_, rfl⟩
  unfold details_from_dom
  rw [h, exceptBindOk]
  rfl

/-- Witness for C10: the body `"hello"` contains no script block, so the
parser yields the empty map and `details` raises a `ValueError`. -/
theorem C10_details_empty_map_fatal_witness :
    details_from_dom [] "app.id" "hello" = Except.error PyExc.valueError ∧
    isScraperException PyExc.valueError = false :=
  C10_details_empty_map_fatal [] "app.id" "hello" rfl

/-! Section: Claim C5 -/

/-- The continuation loop never discards already-accumulated results: its
output always extends the accumulator. -/
theorem cluster_loop_extends (oracle : Nat → Except PyExc JVal) :
    ∀ (fuel k : Nat) (res : List JVal) (tok : JVal),
      ∃ tail, cluster_loop oracle fuel k res tok = res ++ tail := by
  intro fuel
  induction fuel with
  | zero => intro k res tok; exact ⟨[], by simp [cluster_loop]⟩
  | succ f ih =>
    intro k res tok
    unfold cluster_loop
    by_cases ht : truthy tok = true
    · rw [if_pos ht]
      cases ho : oracle k with
      | error e => exact ⟨[], by simp [ho]⟩
      | ok resp =>
        cases h1 : nested_lookup resp [0, 0, 0] with
        | error e => exact ⟨[], by simp [ho, h1]⟩
        | ok apps =>
          cases h2 : parse_app_list apps with
          | error e => exact ⟨[], by simp [ho, h1, h2]⟩
          | ok page =>
            cases h3 : nested_lookup resp [0, 0, 7, 1] with
            | error e => exact ⟨page, by simp [ho, h1, h2, h3]⟩
            | ok tok2 =>
              obtain ⟨tail, htail⟩ := ih (k + 1) (res ++ page) tok2
              refine ⟨page ++ tail, ?_⟩
              simp only [ho, h1, h2, h3, htail, List.append_assoc]
    · rw [if_neg ht]
      exact ⟨[], by simp⟩

/-- C5: any failure inside the token-continuation loop makes the function
return the results accumulated so far instead of propagating the error:
(1) the output always extends the incoming accumulator; (2) when the
batch request itself raises, the accumulator is returned unchanged; (3)
when the page was already appended and the subsequent token navigation
raises, the accumulator plus that page is returned. -/
theorem C5_cluster_loop_partial_results (oracle : Nat → Except PyExc JVal)
    (fuel k : Nat) (res : List JVal) (tok : JVal) :
    (∃ tail, cluster_loop oracle fuel k res tok = res ++ tail) ∧
    (∀ e, truthy tok = true → oracle k = Except.error e →
      cluster_loop oracle fuel k res tok = res) ∧
    (∀ resp apps page e, truthy tok = true → oracle k = Except.ok resp →
      nested_lookup resp [0, 0, 0] = Except.ok apps →
      parse_app_list apps = Except.ok page →
      nested_lookup resp [0, 0, 7, 1] = Except.error e →
      cluster_loop oracle (fuel + 1) k res tok = res ++ page) := by
  refine ⟨cluster_loop_extends oracle fuel k res tok, ?_, ?_⟩
  · intro e ht ho
    cases fuel with
    | zero => rfl
    | succ f =>
      unfold cluster_loop
      rw [if_pos ht, ho]
  · intro resp apps page e ht ho h1 h2 h3
    unfold cluster_loop
    rw [if_pos ht, ho]
    simp only [h1, h2, h3]

/-- Witness for C5: a continuation request that raises a transport error
on the first iteration returns the seed results unchanged. -/
theorem C5_cluster_loop_partial_results_witness :
    cluster_loop (fun _ => Except.error PyExc.transport) 1 0 [JVal.str "a"]
      (JVal.bool true) = [JVal.str "a"] :=
  (C5_cluster_loop_partial_results (fun _ => Except.error PyExc.transport)
    1 0 [JVal.str "a"] (JVal.bool true)).2.1 PyExc.transport rfl rfl

/-! Section: Claim C6 -/

/-- A falsy (absent) token terminates the continuation loop immediately. -/
theorem cluster_loop_null (oracle : Nat → Except PyExc JVal) (fuel k : Nat)
    (res : List JVal) : cluster_loop oracle fuel k res JVal.null = res := by
  cases fuel with
  | zero => rfl
  | succ f => simp [cluster_loop, truthy]

/-- Navigating `[0, 0, 0]` into a non-empty raw response string yields its
first character (as a one-character string). -/
theorem nested_lookup_str_head (s : String) (c : Char) (cs : List Char)
    (hdata : s.data = c :: cs) :
    nested_lookup (JVal.str s) [0, 0, 0] = Except.ok (JVal.str ⟨[c]⟩) := by
  simp [nested_lookup, truthy, pyLen, pyIndex, hdata, exceptBindOk]

/-- Navigating `[0, 0, 7, 1]` into a non-empty raw response string yields
`None` (the `7 >= len` bounds check fires on the one-character string). -/
theorem nested_lookup_str_token (s : String) (c : Char) (cs : List Char)
    (hdata : s.data = c :: cs) :
    nested_lookup (JVal.str s) [0, 0, 7, 1] = Except.ok JVal.null := by
  simp [nested_lookup, truthy, pyLen, pyIndex, hdata, exceptBindOk]

/-- Model: `_parse_app_list` over a one-character raw string produces one `None`
entry (the `12 >= len` bounds check fires on the single character). -/
theorem parse_app_list_singleton_str (c : Char) :
    parse_app_list (JVal.str ⟨[c]⟩) = Except.ok [JVal.null] := by
  have h1 : nested_lookup (JVal.str ⟨[c]⟩) [12, 0] = Except.ok JVal.null := by
    simp [nested_lookup, truthy, pyLen, exceptBindOk]
  unfold parse_app_list
  rw [show pyIter (JVal.str ⟨[c]⟩) = Except.ok [JVal.str ⟨[c]⟩] from rfl,
    exceptBindOk]
  simp [List.mapM.loop, h1]

/-- C6 (amended): when every batch-endpoint response carries the transient
`PlayDataError` marker, `_get_ui_request` issues six requests in total (the
initial one plus five re-issues, indices `0`–`5`), then gives up returning
the sixth raw response string; and the continuation loop, fed such a raw
string, appends exactly one spurious `None` entry to the seed results and
terminates (rather than returning the seed results alone). -/
theorem C6_retry_marker (fetches : Nat → Except PyExc String) (r : Nat → String)
    (hf : ∀ n, n ≤ 5 → fetches n = Except.ok (r n))
    (hm : ∀ n, n ≤ 5 → containsSub "PlayDataError" (r n) = true) :
    get_ui_request fetches = Except.ok (JVal.str (r 5)) ∧
    (∀ (oracle : Nat → Except PyExc JVal) (fuel k : Nat) (res : List JVal)
        (tok : JVal) (s : String),
        truthy tok = true → oracle k = Except.ok (JVal.str s) → s.data ≠ [] →
        cluster_loop oracle (fuel + 1) k res tok = res ++ [JVal.null]) := by
  constructor
  · have h0 := hf 0 (by omega); have h1 := hf 1 (by omega)
    have h2 := hf 2 (by omega); have h3 := hf 3 (by omega)
    have h4 := hf 4 (by omega); have h5 := hf 5 (by omega)
    have m0 := hm 0 (by omega); have m1 := hm 1 (by omega)
    have m2 := hm 2 (by omega); have m3 := hm 3 (by omega)
    have m4 := hm 4 (by omega); have m5 := hm 5 (by omega)
    unfold get_ui_request
    rw [h0]
    unfold uiLoop
    rw [m0, if_pos rfl, if_neg (by omega), h1]
    unfold uiLoop
    rw [m1, if_pos rfl, if_neg (by omega), h2]
    unfold uiLoop
    rw [m2, if_pos rfl, if_neg (by omega), h3]
    unfold uiLoop
    rw [m3, if_pos rfl, if_neg (by omega), h4]
    unfold uiLoop
    rw [m4, if_pos rfl, if_neg (by omega), h5]
    unfold uiLoop
    rw [m5, if_pos rfl, if_pos rfl]
  · intro oracle fuel k res tok s ht ho hs
    obtain ⟨c, cs, hdata⟩ : ∃ c cs, s.data = c :: cs := by
      cases hd : s.data with
      | nil => exact absurd hd hs
      | cons c cs => exact ⟨c, cs, rfl⟩
    unfold cluster_loop
    rw [if_pos ht, ho]
    simp only [nested_lookup_str_head s c cs hdata, parse_app_list_singleton_str,
      nested_lookup_str_token s c cs hdata, cluster_loop_null]

/-- Witness for C6: all six fetches return a marker-bearing body, so the
call gives up with the raw string; the continuation loop fed a raw string
appends one `None`. -/
theorem C6_retry_marker_witness :
    get_ui_request (fun _ => Except.ok "PlayDataError") =
      Except.ok (JVal.str "PlayDataError") ∧
    cluster_loop (fun _ => Except.ok (JVal.str "x")) 1 0 [] (JVal.bool true) =
      [JVal.null] :=
  ⟨(C6_retry_marker (fun _ => Except.ok "PlayDataError")
      (fun _ => "PlayDataError") (fun _ _ => rfl) (fun _ _ => rfl)).1,
    (C6_retry_marker (fun _ => Except.ok "PlayDataError")
      (fun _ => "PlayDataError") (fun _ _ => rfl) (fun _ _ => rfl)).2
      (fun _ => Except.ok (JVal.str "x")) 0 0 [] (JVal.bool true) "x" rfl rfl
      (by decide)⟩

/-- C6 counterexample: over a seed page yielding `[id1]` and token `TOK`,
with every continuation response carrying the transient marker, the
pagination run returns `[id1, None]` — the seed results plus a spurious
`None` entry — not the seed results alone as the claim states. -/
theorem C6_counterexample :
    cluster_request 2 domSeedPage (fun _ _ => Except.ok "xPlayDataError") =
      Except.ok [JVal.str "id1", JVal.null] ∧
    Except.ok [JVal.str "id1", JVal.null] ≠
      (Except.ok [JVal.str "id1"] : Except PyExc (List JVal)) :=
  ⟨rfl, fun h => by simp at h⟩

/-! Section: Claim C1 -/

/-- C1 (amended): on a second attempt carrying a previous classification,
provided the second failure is not a configuration/credential error (which
`execute` aborts with `False` before consulting the table) and both
messages contain the `": "` separator used to trim the recorded text, the
outcome follows the retry classification table: a permanent second error
(code below 10) is the final recorded failure; otherwise a permanent first
error is; otherwise (both transient) the item is abandoned — no failure
line, not finished, not re-queued. -/
theorem C1_retry_classification (app : String) (pc : Nat) (pm msg : String)
    (hcfg1 : containsSub "configuration file" msg = false)
    (hcfg2 : containsSub "credentials" msg = false)
    (hsep : 2 ≤ (pySplit msg ": ").length)
    (hsepPrev : 2 ≤ (pySplit pm ": ").length) :
    followsRetryTable app pc pm msg
      (execute app true (some (pc, pm)) (some msg)) := by
  by_cases hc : classify msg < 10
  · obtain ⟨t, ht⟩ : ∃ t, (pySplit msg ": ")[1]? = some t :=
      ⟨_, List.getElem?_eq_getElem (by omega)⟩
    have h10 : ¬ (10 ≤ classify msg) := by omega
    have hex : execute app true (some (pc, pm)) (some msg) =
        ⟨ExecRet.rTrue, [(app, t)], [], []⟩ := by
      simp [execute, hcfg1, hcfg2, hc, ht, h10]
    unfold followsRetryTable
    rw [if_pos hc, hex]
    exact ⟨rfl, t, ht, rfl⟩
  · by_cases hp : pc < 10
    · obtain ⟨t, ht⟩ : ∃ t, (pySplit pm ": ")[1]? = some t :=
        ⟨_, List.getElem?_eq_getElem (by omega)⟩
      have h10 : 10 ≤ classify msg := by omega
      have hex : execute app true (some (pc, pm)) (some msg) =
          ⟨ExecRet.rTrue, [(app, t)], [(app, msg)], []⟩ := by
        simp [execute, hcfg1, hcfg2, hc, hp, ht, h10]
      unfold followsRetryTable
      rw [if_neg hc, if_pos hp, hex]
      exact ⟨rfl, t, ht, rfl⟩
    · have h10 : 10 ≤ classify msg := by omega
      have hex : execute app true (some (pc, pm)) (some msg) =
          ⟨ExecRet.rFalse, [], [(app, msg)], []⟩ := by
        simp [execute, hcfg1, hcfg2, hc, hp, h10]
      unfold followsRetryTable
      rw [if_neg hc, if_neg hp, hex]
      exact ⟨rfl, rfl, rfl⟩

/-- Witness for C1: first error permanent (`Item not found`, code 1),
second error transient (code 15): the first error is the final recorded
failure. -/
theorem C1_retry_classification_witness :
    followsRetryTable "A" 1 "E: Item not found" "F: Connection reset"
      (execute "A" true (some (1, "E: Item not found"))
        (some "F: Connection reset")) :=
  C1_retry_classification "A" 1 "E: Item not found" "F: Connection reset"
    (by decide) (by decide) (by decide) (by decide)

/-- C1 counterexample, two instances: (a) a second failure whose message
mentions `credentials` (classified transient, code 15) after a permanent
first error (code 1): the table demands the first error be recorded as the
final failure, but `execute` returns `False` with no failure line (the
configuration/credential early return wins); (b) a permanent second error
whose message lacks the `": "` separator: `str(e).split(": ")[1]` raises
`IndexError` instead of recording it. -/
theorem C1_counterexample :
    (¬ followsRetryTable "A" 1 "E: Item not found" "bad credentials"
        (execute "A" true (some (1, "E: Item not found"))
          (some "bad credentials"))) ∧
    execute "A" true (some (14, "transient")) (some "Item not found") =
      ⟨ExecRet.raised PyExc.indexError, [], [], []⟩ ∧
    ¬ followsRetryTable "A" 14 "transient" "Item not found"
        (execute "A" true (some (14, "transient")) (some "Item not found")) := by
  refine ⟨?_, by decide, ?_⟩
  · have hex : execute "A" true (some (1, "E: Item not found"))
        (some "bad credentials") = ⟨ExecRet.rFalse, [], [], []⟩ := by decide
    have hcl : classify "bad credentials" = 15 := by decide
    unfold followsRetryTable
    rw [hcl, hex]
    norm_num
    rintro ⟨h1, -⟩
    exact ExecRet.noConfusion h1
  · have hex : execute "A" true (some (14, "transient")) (some "Item not found") =
        ⟨ExecRet.raised PyExc.indexError, [], [], []⟩ := by decide
    have hcl : classify "Item not found" = 1 := by decide
    unfold followsRetryTable
    rw [hcl, hex]
    norm_num
    rintro ⟨h1, -⟩
    exact ExecRet.noConfusion h1

/-! Section: Claim C2 -/

/-- A failure-file line written by one `execute` call always carries the
identifier of the item itself, and only a call returning `True` writes one. -/
theorem execute_fail_shape (app : String) (isRetry : Bool)
    (previous : Option (Nat × String)) (dres : Option String) :
    (execute app isRetry previous dres).fail = [] ∨
    ∃ t, (execute app isRetry previous dres).fail = [(app, t)] ∧
      (execute app isRetry previous dres).ret = ExecRet.rTrue := by
  cases dres with
  | none => exact Or.inl rfl
  | some msg =>
    by_cases hcfg :
        (containsSub "configuration file" msg || containsSub "credentials" msg) = true
    · left; simp [execute, hcfg]
    · cases isRetry with
      | false => left; simp [execute, hcfg]
      | true =>
        cases previous with
        | none => left; simp [execute, hcfg]
        | some pr =>
          obtain ⟨pcode, pmsg⟩ := pr
          by_cases hc : classify msg < 10
          · cases hsp : (pySplit msg ": ")[1]? with
            | some t =>
              right
              exact ⟨t, by simp [execute, hcfg, hc, hsp],
                by simp [execute, hcfg, hc, hsp]⟩
            | none => left; simp [execute, hcfg, hc, hsp]
          · by_cases hp : pcode < 10
            · cases hsp : (pySplit pmsg ": ")[1]? with
              | some t =>
                right
                exact ⟨t, by simp [execute, hcfg, hc, hp, hsp],
                  by simp [execute, hcfg, hc, hp, hsp]⟩
              | none => left; simp [execute, hcfg, hc, hp, hsp]
            · left; simp [execute, hcfg, hc, hp]

/-- The crawl-loop invariant: the identifier of every failure-file line is in
the resumable log, preserved by each step (including a step that raises
out of `execute`). -/
theorem crawlLoop_fail_in_finished (dl : String → Bool → Option String) :
    ∀ (fuel : Nat) (queue : List (String × Bool × Option (Nat × String)))
      (st : CrawlState),
      (∀ p ∈ st.fail, p.1 ∈ st.finished) →
      ∀ p ∈ (crawlLoop dl fuel queue st).1.fail,
        p.1 ∈ (crawlLoop dl fuel queue st).1.finished := by
  intro fuel
  induction fuel with
  | zero => intro queue st h; exact h
  | succ f ih =>
    intro queue st h
    cases queue with
    | nil => exact h
    | cons item rest =>
      obtain ⟨app, isRetry, previous⟩ := item
      have hstep : ∀ p ∈ st.fail ++ (execute app isRetry previous (dl app isRetry)).fail,
          p.1 ∈ st.finished ++
            (if (execute app isRetry previous (dl app isRetry)).ret = ExecRet.rTrue
              then [app] else []) := by
        intro p hp
        rcases List.mem_append.mp hp with hp | hp
        · exact List.mem_append_left _ (h p hp)
        · rcases execute_fail_shape app isRetry previous (dl app isRetry) with
            hsh | ⟨t, hsh, hret⟩
          · rw [hsh] at hp; cases hp
          · rw [hsh] at hp
            rw [List.mem_singleton] at hp
            subst hp
            rw [hret]
            simp
      unfold crawlLoop
      cases hr : (execute app isRetry previous (dl app isRetry)).ret with
      | raised e => simpa [hr] using hstep
      | rTrue =>
        simp only [hr]
        exact ih (rest ++ (execute app isRetry previous (dl app isRetry)).requeue)
          _ (by simpa [hr] using hstep)
      | rFalse =>
        simp only [hr]
        exact ih (rest ++ (execute app isRetry previous (dl app isRetry)).requeue)
          _ (by simpa [hr] using hstep)
      | rNone =>
        simp only [hr]
        exact ih (rest ++ (execute app isRetry previous (dl app isRetry)).requeue)
          _ (by simpa [hr] using hstep)

/-- C2 (amended): starting from empty output files, every identifier
written to the failure file is *also* appended to the resumable log (the
recorded-terminal-failure path returns `True`, which `crawl` logs as
finished) — so an item ends in exactly one of: the resumable log only
(success), the resumable log *and* the failure file (recorded terminal
failure), or neither file (abandoned); the failure file alone is
impossible, and so is "failure file without resumable log". -/
theorem C2_failure_implies_finished (dl : String → Bool → Option String)
    (fuel : Nat) (queue : List (String × Bool × Option (Nat × String))) :
    ∀ p ∈ (crawlLoop dl fuel queue ⟨[], [], []⟩).1.fail,
      p.1 ∈ (crawlLoop dl fuel queue ⟨[], [], []⟩).1.finished :=
  crawlLoop_fail_in_finished dl fuel queue ⟨[], [], []⟩ (by simp)

/-- Witness for C2: a run whose single item fails twice with a permanent
error, applied to the theorem at its concrete failure-file line. -/
theorem C2_failure_implies_finished_witness :
    ("A" : String) ∈ (crawlLoop (fun _ _ => some "E: Item not found") 3
      [("A", false, none)] ⟨[], [], []⟩).1.finished :=
  C2_failure_implies_finished (fun _ _ => some "E: Item not found") 3
    [("A", false, none)] ("A", "Item not found") (by decide)

/-- C2 counterexample: the same run writes `A` to *both* the failure file
and the resumable log, refuting the clause "no identifier is ever written
to both". -/
theorem C2_counterexample :
    (crawlLoop (fun _ _ => some "E: Item not found") 3 [("A", false, none)]
        ⟨[], [], []⟩).1 =
      ⟨["A"], [("A", "Item not found")], []⟩ ∧
    "A" ∈ (crawlLoop (fun _ _ => some "E: Item not found") 3
      [("A", false, none)] ⟨[], [], []⟩).1.finished ∧
    "A" ∈ ((crawlLoop (fun _ _ => some "E: Item not found") 3
      [("A", false, none)] ⟨[], [], []⟩).1.fail.map fun p => p.1) :=
  ⟨by decide, by decide, by decide⟩

/-! Section: Claim C8 -/

/-- C8 (amended): the reduced-metadata row is the six comma-joined fields
`appId,version,updated,released,downloadLink,downloadLinkEnabled`, with
`released` double-quoted when present (truthy) and the two boolean fields
rendered with the Python `str(bool)` capitalisation `True`/`False` (not
`true`/`false`). -/
theorem C8_reduced_row_shape (app : String)
    (version updated released dl0 dle0 : JVal) :
    try_metadata_row app version updated released dl0 dle0 =
      amended_metadata_row app version updated released dl0 dle0 ∧
    (pyBoolStr (truthy dl0) = "True" ∨ pyBoolStr (truthy dl0) = "False") := by
  constructor
  · unfold try_metadata_row amended_metadata_row
    by_cases h : truthy released = true
    · rw [if_pos h, if_pos h]
      simp only [String.intercalate, String.intercalate.go, String.append_assoc]
    · rw [if_neg h, if_neg h]
      simp only [String.intercalate, String.intercalate.go, String.append_assoc]
  · unfold pyBoolStr
    by_cases h : truthy dl0 <;> simp [h]

/-- C8 counterexample: for a record with a present release date and an
enabled download link, the emitted row renders the booleans as
`True`/`True`, not the claimed `true`/`true`. -/
theorem C8_counterexample :
    try_metadata_row "a.b" (JVal.str "1.0") (JVal.str "Jan 1, 2020")
        (JVal.str "Oct 9, 2012") (JVal.str "L") (JVal.bool true) =
      "a.b,1.0,Jan 1, 2020,\x22Oct 9, 2012\x22,True,True\n" ∧
    try_metadata_row "a.b" (JVal.str "1.0") (JVal.str "Jan 1, 2020")
        (JVal.str "Oct 9, 2012") (JVal.str "L") (JVal.bool true) ≠
      claimed_metadata_row "a.b" (JVal.str "1.0") (JVal.str "Jan 1, 2020")
        (JVal.str "Oct 9, 2012") (JVal.str "L") (JVal.bool true) :=
  ⟨by decide, by decide⟩

/-! Section: Claim C9 -/

/-- Membership in the `read_apps` accumulator loop. -/
theorem readAppsGo_mem (lines : List String) :
    ∀ (seen : List String) (x : String),
      x ∈ readAppsGo lines seen ↔
        (x ∉ seen ∧ x.data.head? ≠ some '#' ∧ x ∈ lines.map pyStrip) := by
  induction lines with
  | nil => intro seen x; simp [readAppsGo]
  | cons l rest ih =>
    intro seen x
    simp only [readAppsGo, List.map_cons, List.mem_cons]
    split
    case isTrue h =>
      rw [ih]
      constructor
      · rintro ⟨hx1, hx2, hx3⟩
        exact ⟨hx1, hx2, Or.inr hx3⟩
      · rintro ⟨hx1, hx2, hx3⟩
        refine ⟨hx1, hx2, ?_⟩
        rcases hx3 with rfl | hx3
        · rcases h with h | h
          · exact absurd h hx2
          · exact absurd h hx1
        · exact hx3
    case isFalse h =>
      push_neg at h
      obtain ⟨hh, hs⟩ := h
      rw [List.mem_cons, ih]
      constructor
      · rintro (rfl | ⟨hx1, hx2, hx3⟩)
        · exact ⟨hs, hh, Or.inl rfl⟩
        · refine ⟨fun hmem => hx1 (List.mem_cons_of_mem _ hmem), hx2, Or.inr hx3⟩
      · rintro ⟨hx1, hx2, hx3⟩
        rcases hx3 with rfl | hx3
        · exact Or.inl rfl
        · by_cases hxl : x = pyStrip l
          · exact Or.inl hxl
          · refine Or.inr ⟨?_, hx2, hx3⟩
            rw [List.mem_cons]
            rintro (h | h)
            · exact hxl h
            · exact hx1 h

/-- The `read_apps` loop emits no duplicate. -/
theorem readAppsGo_nodup (lines : List String) :
    ∀ seen, (readAppsGo lines seen).Nodup := by
  induction lines with
  | nil => intro seen; simp [readAppsGo]
  | cons l rest ih =>
    intro seen
    simp only [readAppsGo]
    split
    · exact ih seen
    · refine List.Nodup.cons ?_ (ih _)
      intro hmem
      exact ((readAppsGo_mem rest _ _).mp hmem).1 (List.mem_cons_self _ _)

/-- The `read_apps` loop preserves first-occurrence order: its output is a
sublist of the stripped input lines. -/
theorem readAppsGo_sublist (lines : List String) :
    ∀ seen, List.Sublist (readAppsGo lines seen) (lines.map pyStrip) := by
  induction lines with
  | nil => intro seen; simp [readAppsGo]
  | cons l rest ih =>
    intro seen
    simp only [readAppsGo, List.map_cons]
    split
    · exact (ih seen).cons _
    · exact (ih _).cons₂ _

/-- Membership in the `crawl` queue-deduplication loop. -/
theorem crawlQueueGo_mem (xs : List String) :
    ∀ (seen : List String) (x : String),
      x ∈ crawlQueueGo xs seen ↔ (x ∉ seen ∧ x ∈ xs) := by
  induction xs with
  | nil => intro seen x; simp [crawlQueueGo]
  | cons a rest ih =>
    intro seen x
    simp only [crawlQueueGo, List.mem_cons]
    split
    case isTrue h =>
      rw [ih]
      constructor
      · rintro ⟨hx1, hx2⟩
        exact ⟨hx1, Or.inr hx2⟩
      · rintro ⟨hx1, rfl | hx2⟩
        · exact absurd h hx1
        · exact ⟨hx1, hx2⟩
    case isFalse h =>
      rw [List.mem_cons, ih]
      constructor
      · rintro (rfl | ⟨hx1, hx2⟩)
        · exact ⟨h, Or.inl rfl⟩
        · exact ⟨fun hmem => hx1 (List.mem_cons_of_mem _ hmem), Or.inr hx2⟩
      · rintro ⟨hx1, rfl | hx2⟩
        · exact Or.inl rfl
        · by_cases hxa : x = a
          · exact Or.inl hxa
          · refine Or.inr ⟨?_, hx2⟩
            rw [List.mem_cons]
            rintro (hxx | hxx)
            · exact hxa hxx
            · exact hx1 hxx

/-- The queue-deduplication loop emits no duplicate. -/
theorem crawlQueueGo_nodup (xs : List String) :
    ∀ seen, (crawlQueueGo xs seen).Nodup := by
  induction xs with
  | nil => intro seen; simp [crawlQueueGo]
  | cons a rest ih =>
    intro seen
    simp only [crawlQueueGo]
    split
    · exact ih seen
    · refine List.Nodup.cons ?_ (ih _)
      intro hmem
      exact ((crawlQueueGo_mem rest _ _).mp hmem).1 (List.mem_cons_self _ _)

/-- The queue-deduplication loop preserves first-occurrence order. -/
theorem crawlQueueGo_sublist (xs : List String) :
    ∀ seen, List.Sublist (crawlQueueGo xs seen) xs := by
  induction xs with
  | nil => intro seen; simp [crawlQueueGo]
  | cons a rest ih =>
    intro seen
    simp only [crawlQueueGo]
    split
    · exact (ih seen).cons _
    · exact (ih _).cons₂ _

/-- The line filter of `crawler.read_input_apps` as a proposition. -/
theorem read_input_apps_mem (lines : List String) (x : String) :
    x ∈ read_input_apps lines ↔
      ((x.data ≠ [] ∧ x.data.head? ≠ some '#') ∧ x ∈ lines.map pyStrip) := by
  unfold read_input_apps
  rw [List.mem_filter]
  constructor
  · rintro ⟨hmem, hpred⟩
    refine ⟨?_, hmem⟩
    cases hd : x.data with
    | nil => rw [hd] at hpred; simp at hpred
    | cons c cs =>
      rw [hd] at hpred
      simp only [decide_eq_true_eq] at hpred
      refine ⟨by simp, ?_⟩
      simp [hpred]
  · rintro ⟨⟨hne, hh⟩, hmem⟩
    refine ⟨hmem, ?_⟩
    cases hd : x.data with
    | nil => exact absurd hd hne
    | cons c cs =>
      simp only [decide_eq_true_eq]
      intro hc
      exact hh (by rw [hd, hc]; rfl)

/-- C9 (amended): the metadata crawl reader (`read_apps`) queues no
comment line and each identifier once, in first-occurrence order — but it
does *not* drop blank lines: the first blank line is kept as an empty
identifier (later blanks collapse into it as duplicates).  The APK
crawler path (`read_input_apps` then the `crawl` dedup-queueing loop)
additionally drops all blank lines, so there the claim holds in full. -/
theorem C9_queued_identifiers (lines : List String) :
    ((read_apps lines).Nodup ∧
      List.Sublist (read_apps lines) (lines.map pyStrip) ∧
      (∀ x, x ∈ read_apps lines ↔
        (x.data.head? ≠ some '#' ∧ x ∈ lines.map pyStrip))) ∧
    ((crawl_queue (read_input_apps lines)).Nodup ∧
      List.Sublist (crawl_queue (read_input_apps lines)) (lines.map pyStrip) ∧
      (∀ x, x ∈ crawl_queue (read_input_apps lines) ↔
        (x.data ≠ [] ∧ x.data.head? ≠ some '#' ∧ x ∈ lines.map pyStrip))) := by
  refine ⟨⟨readAppsGo_nodup lines [], readAppsGo_sublist lines [], fun x => ?_⟩,
    crawlQueueGo_nodup _ [], ?_, fun x => ?_⟩
  · rw [read_apps, readAppsGo_mem]
    simp
  · exact (crawlQueueGo_sublist _ []).trans
      ((List.filter_sublist _).trans (List.Sublist.refl _))
  · rw [crawl_queue, crawlQueueGo_mem, read_input_apps_mem]
    simp [and_assoc]

/-- Witness for C9: the example `[A, B, A, C]` from the spec queues exactly
`[A, B, C]`, once each and in order, on the APK-crawler path. -/
theorem C9_queued_identifiers_witness :
    (crawl_queue (read_input_apps ["A", "B", "A", "C"])).Nodup :=
  (C9_queued_identifiers ["A", "B", "A", "C"]).2.1

/-- C9 counterexample: an input with blank lines — `read_apps` keeps the
first blank line as the empty identifier, so the queued set *does* contain
a blank entry, refuting "contains no blank line". -/
theorem C9_counterexample :
    read_apps ["A\n", "\n", "B\n"] = ["A", "", "B"] ∧
    "" ∈ read_apps ["A\n", "\n", "B\n"] :=
  ⟨by decide, by decide⟩
